import Mathlib

/-!
# noah: the Portal registry, role assignment and reply aggregation

A shallow embedding of `task/portal.go` and `task/agent.go`.

* RPC handlers are modelled as atomic steps on an explicit `Portal` value.
* A Go function that can return an error or abort with a runtime panic
  returns an `Outcome`.
* Calls into packages outside the two files (the NATS client, the storage
  resolver, the job runner) are taken from an `Env` record of oracles and
  leave a trace of `Event`s.
* Logging is dropped, except in `Wait`, whose callback does nothing else.
-/

namespace Noah

/-! ## Results of Go calls -/

/-- How a Go call ends: a normal return, a returned non-nil `error`, or a
runtime panic that unwinds the goroutine. -/
inductive Outcome (α : Type) where
  | ok : α → Outcome α
  | error : String → Outcome α
  | panic : String → Outcome α
  deriving DecidableEq, Repr

/-- The value carried by a normal return, if the call returned normally. -/
def Outcome.reply? {α : Type} : Outcome α → Option α
  | .ok a => some a
  | .error _ => none
  | .panic _ => none

/-- Whether the call ended by returning a non-nil `error`. -/
def Outcome.isError {α : Type} : Outcome α → Bool
  | .ok _ => false
  | .error _ => true
  | .panic _ => false

/-! ## Messages (package `proto`, field names as used in `task/`) -/

structure RegisterRequest where
  Id : String
  Addr : String
  deriving DecidableEq, Repr

structure RegisterReply where
  Addr : String
  Subject : String
  deriving DecidableEq, Repr

structure UpgradeRequest where
  NodeId : String
  TaskId : String
  deriving DecidableEq, Repr

structure UpgradeReply where
  NodeId : String
  Addr : String
  Subject : String
  deriving DecidableEq, Repr

structure Pair where
  Key : String
  Value : String
  deriving DecidableEq, Repr

/-- An endpoint description; `Typ` is the Go field `Type`. -/
structure Endpoint where
  Typ : String
  Pairs : List Pair
  deriving DecidableEq, Repr

/-- A job; `Typ` is the Go field `Type`, `Content` the serialized body. -/
structure Job where
  Id : String
  Typ : Nat
  Content : List Nat
  deriving DecidableEq, Repr

structure Task where
  Id : String
  Endpoints : List Endpoint
  Job : Job
  deriving DecidableEq, Repr

/-- A completion reply; `Status` is compared against `JobStatusSucceed`. -/
structure TaskReply where
  Id : String
  Status : Int
  Message : String
  deriving DecidableEq, Repr

/-! ## Portal -/

structure PortalConfig where
  Host : String
  GrpcPort : Int
  QueuePort : Int
  deriving DecidableEq, Repr

/-- Go: `fmt.Sprintf("%s:%d", p.Host, p.GrpcPort)`. -/
def PortalConfig.GrpcAddr (p : PortalConfig) : String :=
  p.Host ++ ":" ++ toString p.GrpcPort

/-- Go: `fmt.Sprintf("%s:%d", p.Host, p.QueuePort)`. -/
def PortalConfig.QueueAddr (p : PortalConfig) : String :=
  p.Host ++ ":" ++ toString p.QueuePort

/-- A request message handed to the bus by `PublishRequest(subject, reply, v)`. -/
structure Published where
  subject : String
  reply : String
  task : Task
  deriving DecidableEq, Repr

/-- The Portal. `nodes` is the Go slice, `nodeAddrMap` the Go map (a lookup
function; `NewPortal` always allocates it, so it is never the nil map), and
`queue` the messages the Portal has handed to its bus connection. -/
structure Portal where
  nodes : List String
  nodeAddrMap : String → Option String
  config : PortalConfig
  queue : List Published

/-- Go map read `m[k]`: the zero value `""` when the key is absent. -/
def mapGet (m : String → Option String) (k : String) : String :=
  (m k).getD ""

/-- Go map write `m[k] = v`. -/
def mapSet (m : String → Option String) (k v : String) : String → Option String :=
  fun x => if x = k then some v else m x

/-- The Portal value built by `NewPortal` (returned once the bus is up):
no nodes, an empty map, the given config. -/
def NewPortal (cfg : PortalConfig) : Portal :=
  { nodes := [], nodeAddrMap := fun _ => none, config := cfg, queue := [] }

/-- Go: `Portal.Register`: appends the id, writes the map, returns the queue
address and the subject `"tasks"` with a nil error. -/
def Register (p : Portal) (request : RegisterRequest) : Portal × Outcome RegisterReply :=
  ({ p with
      nodes := p.nodes ++ [request.Id]
      nodeAddrMap := mapSet p.nodeAddrMap request.Id request.Addr },
   .ok { Addr := p.config.QueueAddr, Subject := "tasks" })

/-- Go: `Portal.Upgrade`: reads `p.nodes[0]`, which panics on an empty slice;
otherwise returns that id, its map entry and `"task." + TaskId`, nil error. -/
def Upgrade (p : Portal) (request : UpgradeRequest) : Outcome UpgradeReply :=
  match p.nodes with
  | [] => .panic "runtime error: index out of range [0] with length 0"
  | n :: _ =>
    .ok { NodeId := n
          Addr := mapGet p.nodeAddrMap n
          Subject := "task." ++ request.TaskId }

/-- Go: `Portal.Publish`: `PublishRequest("tasks", task.Id, task)`; `busErr` is
what the bus connection answers. -/
def Publish (p : Portal) (task : Task) (busErr : Option String) : Portal × Option String :=
  match busErr with
  | some e => (p, some e)
  | none =>
    ({ p with queue := p.queue ++ [{ subject := "tasks", reply := task.Id, task := task }] }, none)

/-- A sequence of `Register` calls, applied in order. -/
def registerAll (p : Portal) : List RegisterRequest → Portal
  | [] => p
  | r :: rs => registerAll (Register p r).1 rs

/-- The calls that change the Portal before a `Wait`: registrations and
publishes, in the order they are served. -/
inductive PortalCall where
  | register : RegisterRequest → PortalCall
  | publish : Task → Option String → PortalCall
  deriving DecidableEq, Repr

/-- One call applied to the Portal. -/
def applyCall (p : Portal) : PortalCall → Portal
  | .register r => (Register p r).1
  | .publish t busErr => (Publish p t busErr).1

/-- A history of calls applied in order. -/
def runCalls (p : Portal) : List PortalCall → Portal
  | [] => p
  | c :: cs => runCalls (applyCall p c) cs

/-- The number of `Register` calls in a history. -/
def registerCount : List PortalCall → Nat
  | [] => 0
  | .register _ :: cs => registerCount cs + 1
  | .publish _ _ :: cs => registerCount cs

/-! ## Portal.Wait -/

/-- A line written by the subscription callback of `Wait`. -/
inductive LogLine where
  | info : String → String → LogLine
  | error : String → String → String → LogLine
  deriving DecidableEq, Repr

/-- The body of the callback, `wg.Done` apart: a succeeded reply is logged at
info level, any other status at error level with the reply message. -/
def waitCallback (JobStatusSucceed : Int) (tr : TaskReply) : LogLine :=
  if tr.Status = JobStatusSucceed then .info "task succeed" tr.Id
  else .error "task failed" tr.Id tr.Message

/-- What a returned `Wait` leaves behind: its `err` result, the replies its
callback consumed and the lines it logged. -/
structure WaitReturn where
  err : Option String
  observed : List TaskReply
  log : List LogLine
  deriving DecidableEq, Repr

/-- How a call of `Wait` ends: it returns, it stays blocked in `wg.Wait`
forever, or the process panics. -/
inductive WaitResult where
  | returns : WaitReturn → WaitResult
  | blocks : WaitResult
  | panics : String → WaitResult
  deriving DecidableEq, Repr

/-- The value `Wait` returned, if it returned. -/
def WaitResult.returned? : WaitResult → Option WaitReturn
  | .returns r => some r
  | .blocks => none
  | .panics _ => none

/-- The wait group of `Wait`: the counter is what `wg.Add` left to be matched
by `wg.Done`, and each reply delivered while the subscription is live runs the
callback once. When the replies run out before the counter reaches zero,
`wg.Wait` never returns. A reply delivered with the counter at zero (the
subscription is only removed by the deferred `Unsubscribe`) runs `wg.Done`
once more, which panics on the negative counter. -/
def waitLoop (JobStatusSucceed : Int) :
    Nat → List TaskReply → List TaskReply → List LogLine → WaitResult
  | 0, [], seen, log => .returns { err := none, observed := seen, log := log }
  | 0, _ :: _, _, _ => .panics "sync: negative WaitGroup counter"
  | _ + 1, [], _, _ => .blocks
  | n + 1, tr :: rest, seen, log =>
    waitLoop JobStatusSucceed n rest (seen ++ [tr]) (log ++ [waitCallback JobStatusSucceed tr])

/-- Go: `Portal.Wait`. `subscribeErr` is what `Subscribe(task.Id, ...)` answers
and `replies` the TaskReplies delivered on that subject while the subscription
is live, in order. The named result `err` is only ever assigned by
`Subscribe`. -/
def Wait (JobStatusSucceed : Int) (p : Portal) (subscribeErr : Option String)
    (_task : Task) (replies : List TaskReply) : WaitResult :=
  match subscribeErr with
  | some e => .returns { err := some e, observed := [], log := [] }
  | none => waitLoop JobStatusSucceed p.nodes.length replies [] []

/-! ## Agent -/

/-- Calls an Agent makes outside `task/agent.go`, in the order it makes them. -/
inductive Event where
  | natsConnect : String → Event
  | newEncodedConn : String → Event
  | runnerSync : String → Event
  | drain : Event
  | queueSubscribe : String → String → Event
  | wgWait : Event
  deriving DecidableEq, Repr

/-- The collaborators of an Agent, each answering with its error (`none` for
nil): the endpoint resolver `ep.ParseStorager()`, `nats.Connect`,
`nats.NewEncodedConn`, the dispatcher run `NewRunner(a, job).Sync`,
`queue.Drain` and `queue.QueueSubscribe`. -/
structure Env (S : Type) where
  ParseStorager : Endpoint → Except String S
  natsConnect : String → Option String
  newEncodedConn : String → Option String
  runnerSync : Job → Option String
  drain : Option String
  queueSubscribe : String → String → Option String

/-- A worker as the Agent sees it: its id and its RPC client `node`. -/
structure Worker where
  id : String
  node : UpgradeRequest → Except String UpgradeReply

/-- The RPC client of a worker connected to Portal `p` over a loss-free
transport: the request reaches `Upgrade`; a handler that returns an error or
aborts reaches the caller as an RPC error. -/
def portalClient (p : Portal) (request : UpgradeRequest) : Except String UpgradeReply :=
  match Upgrade p request with
  | .ok r => .ok r
  | .error e => .error e
  | .panic e => .error e

structure Agent (S : Type) where
  w : Worker
  t : Task
  queue : Option String
  subject : String
  storages : List S

/-- Go: `NewAgent`. -/
def NewAgent {S : Type} (w : Worker) (t : Task) : Agent S :=
  { w := w, t := t, queue := none, subject := "", storages := [] }

/-- The branch of `Handle` that was entered. -/
inductive Branch where
  | handleServer : Branch
  | handleClient : Branch
  deriving DecidableEq, Repr

/-- The loop of `parseStorage`: stops at the first endpoint that fails to
resolve, keeping the handles appended so far. -/
def parseLoop {S : Type} (parse : Endpoint → Except String S) :
    List Endpoint → List S → List S × Option String
  | [], acc => (acc, none)
  | ep :: rest, acc =>
    match parse ep with
    | .error e => (acc, some e)
    | .ok store => parseLoop parse rest (acc ++ [store])

/-- Go: `Agent.parseStorage`. -/
def parseStorage {S : Type} (env : Env S) (a : Agent S) : Agent S × Option String :=
  let r := parseLoop env.ParseStorager a.t.Endpoints a.storages
  ({ a with storages := r.1 }, r.2)

/-- Go: `Agent.handleServer`. -/
def handleServer {S : Type} (env : Env S) (a : Agent S) (addr : String) :
    Agent S × Option String × List Event :=
  match env.natsConnect addr with
  | some e => (a, some ("nats connect: " ++ e), [.natsConnect addr])
  | none =>
    match env.newEncodedConn addr with
    | some e =>
      (a, some ("nats encoded connect: " ++ e), [.natsConnect addr, .newEncodedConn addr])
    | none =>
      let a1 := { a with queue := some addr }
      match env.runnerSync a.t.Job with
      | some e =>
        (a1, some e, [.natsConnect addr, .newEncodedConn addr, .runnerSync a.t.Job.Id])
      | none =>
        (a1, env.drain,
          [.natsConnect addr, .newEncodedConn addr, .runnerSync a.t.Job.Id, .drain])

/-- Go: `Agent.handleClient`; `a.queue` is assigned together with `err`, so a
failed `NewEncodedConn` leaves it nil. -/
def handleClient {S : Type} (env : Env S) (a : Agent S) (addr : String) :
    Agent S × Option String × List Event :=
  match env.natsConnect addr with
  | some e => (a, some e, [.natsConnect addr])
  | none =>
    match env.newEncodedConn addr with
    | some e => ({ a with queue := none }, some e, [.natsConnect addr, .newEncodedConn addr])
    | none =>
      let a1 := { a with queue := some addr }
      match env.queueSubscribe a.subject a.subject with
      | some e =>
        (a1, some ("nats subscribe: " ++ e),
          [.natsConnect addr, .newEncodedConn addr, .queueSubscribe a.subject a.subject])
      | none =>
        (a1, none,
          [.natsConnect addr, .newEncodedConn addr, .queueSubscribe a.subject a.subject])

/-- What `Handle` leaves behind: the Agent, the returned error, the branch it
entered (if it got that far) and the outside calls it made. -/
structure HandleResult (S : Type) where
  agent : Agent S
  err : Option String
  branch : Option Branch
  events : List Event

/-- Go: `Agent.Handle`. -/
def Handle {S : Type} (env : Env S) (a : Agent S) : HandleResult S :=
  match a.w.node { NodeId := a.w.id, TaskId := a.t.Id } with
  | .error e => { agent := a, err := some ("node upgrade: " ++ e), branch := none, events := [] }
  | .ok reply =>
    let a1 := { a with subject := reply.Subject }
    match parseStorage env a1 with
    | (a2, some e) => { agent := a2, err := some e, branch := none, events := [] }
    | (a2, none) =>
      if reply.NodeId = a.w.id then
        let r := handleServer env a2 reply.Addr
        { agent := r.1, err := r.2.1, branch := some .handleServer, events := r.2.2 }
      else
        let r := handleClient env a2 reply.Addr
        { agent := r.1, err := r.2.1, branch := some .handleClient, events := r.2.2 ++ [.wgWait] }

/-- The address given in the most recent call of a history of Register calls
that carried the id `id`, if any call did (written from the wording of the
property on `dispatcherAddress`, to be compared with the map of `Register`). -/
def lastRegisteredAddr (id : String) : List RegisterRequest → Option String
  | [] => none
  | r :: rs =>
    match lastRegisteredAddr id rs with
    | some a => some a
    | none => if r.Id = id then some r.Addr else none

/-- The worker with id `id` whose RPC client talks to Portal `p`. -/
def connectedWorker (p : Portal) (id : String) : Worker :=
  { id := id, node := portalClient p }

/-! ## Sample values -/

def sampleConfig : PortalConfig :=
  { Host := "localhost", GrpcPort := 7000, QueuePort := 7010 }

/-- A resolver that knows the `fs` type only (its handle is the list of
configured values) and a bus whose calls all succeed. -/
def sampleEnv : Env (List String) :=
  { ParseStorager := fun ep =>
      if ep.Typ = "fs" then .ok (ep.Pairs.map (fun kv => kv.Value))
      else .error ("unsupported type: " ++ ep.Typ)
    natsConnect := fun _ => none
    newEncodedConn := fun _ => none
    runnerSync := fun _ => none
    drain := none
    queueSubscribe := fun _ _ => none }

/-- The task of `TestWorker`: two `fs` endpoints and one job. -/
def sampleTask : Task :=
  { Id := "t1"
    Endpoints := [⟨"fs", [⟨"work_dir", "/tmp/b/"⟩]⟩, ⟨"fs", [⟨"work_dir", "/tmp/c/"⟩]⟩]
    Job := { Id := "j1", Typ := 1, Content := [] } }

/-- A task whose second endpoint has a type the sample resolver rejects. -/
def brokenTask : Task :=
  { Id := "t2"
    Endpoints := [⟨"fs", [⟨"work_dir", "/tmp/b/"⟩]⟩, ⟨"s3", []⟩, ⟨"ftp", []⟩]
    Job := { Id := "j2", Typ := 1, Content := [] } }

/-- A Portal on which nodes `n1` and `n2` registered, in that order. -/
def samplePortal : Portal :=
  registerAll (NewPortal sampleConfig) [⟨"n1", "a1"⟩, ⟨"n2", "a2"⟩]

/-! ## The registry after a sequence of registrations -/

theorem registerAll_nodes (p : Portal) (rs : List RegisterRequest) :
    (registerAll p rs).nodes = p.nodes ++ rs.map (fun r => r.Id) := by
  induction rs generalizing p with
  | nil => simp [registerAll]
  | cons r rs ih => simp [registerAll, ih, Register]

theorem registerAll_config (p : Portal) (rs : List RegisterRequest) :
    (registerAll p rs).config = p.config := by
  induction rs generalizing p with
  | nil => rfl
  | cons r rs ih => simp [registerAll, ih, Register]

theorem registerAll_append (p : Portal) (rs more : List RegisterRequest) :
    registerAll p (rs ++ more) = registerAll (registerAll p rs) more := by
  induction rs generalizing p with
  | nil => rfl
  | cons r rs ih => simp [registerAll, ih]

theorem taskTopic_injective (a b : String) (h : "task." ++ a = "task." ++ b) : a = b := by
  have hd := congrArg String.data h
  simp only [String.data_append, List.append_cancel_left_eq] at hd
  exact String.ext hd

/-! ## Portal.Upgrade -/

/-- C1 (code at the failing input): on a Portal with no registered node,
`Upgrade` returns neither a reply nor an error: for every nodeID and taskID it
aborts with the index-out-of-range panic of `p.nodes[0]`. -/
theorem Upgrade_empty_registry_panics (cfg : PortalConfig) (nodeID taskID : String) :
    Upgrade (NewPortal cfg) { NodeId := nodeID, TaskId := taskID }
        = .panic "runtime error: index out of range [0] with length 0"
      ∧ (Upgrade (NewPortal cfg) { NodeId := nodeID, TaskId := taskID }).isError = false
      ∧ (Upgrade (NewPortal cfg) { NodeId := nodeID, TaskId := taskID }).reply? = none := by
  refine ⟨rfl, rfl, rfl⟩

/-- C2: after a non-empty sequence of Register calls on a fresh Portal,
`Upgrade` returns the id of the first Register call as dispatcherNodeID, for
every nodeID and taskID; and after any number of further Register calls any
other Upgrade call still receives that same dispatcherNodeID. -/
theorem Upgrade_names_first_registered (cfg : PortalConfig) (first : RegisterRequest)
    (rest more : List RegisterRequest) (req req2 : UpgradeRequest) :
    (∃ reply, Upgrade (registerAll (NewPortal cfg) (first :: rest)) req = .ok reply
        ∧ reply.NodeId = first.Id)
      ∧ (∃ reply2,
          Upgrade (registerAll (registerAll (NewPortal cfg) (first :: rest)) more) req2
            = .ok reply2
          ∧ reply2.NodeId = first.Id) := by
  constructor
  · have hn := registerAll_nodes (NewPortal cfg) (first :: rest)
    simp only [NewPortal, List.nil_append, List.map_cons] at hn
    simp only [Upgrade, NewPortal, hn]
    exact ⟨_, rfl, rfl⟩
  · have hn := registerAll_nodes (NewPortal cfg) ((first :: rest) ++ more)
    rw [registerAll_append] at hn
    simp only [NewPortal, List.nil_append, List.cons_append, List.map_cons] at hn
    simp only [Upgrade, NewPortal, hn]
    exact ⟨_, rfl, rfl⟩

/-- C6: with at least one registered node, the taskTopic returned by `Upgrade`
is exactly `"task."` followed by the taskID, whatever the calling node and the
registry; so two successful calls get the same topic exactly when their task
ids are the same. -/
theorem Upgrade_taskTopic (p : Portal) (req : UpgradeRequest) (h : p.nodes ≠ []) :
    (∃ reply, Upgrade p req = .ok reply ∧ reply.Subject = "task." ++ req.TaskId)
      ∧ ∀ (p2 : Portal) (req2 : UpgradeRequest) (r1 r2 : UpgradeReply),
          Upgrade p req = .ok r1 → Upgrade p2 req2 = .ok r2 →
            (r1.Subject = r2.Subject ↔ req.TaskId = req2.TaskId) := by
  constructor
  · cases hn : p.nodes with
    | nil => exact absurd hn h
    | cons n ns => simp only [Upgrade, hn]; exact ⟨_, rfl, rfl⟩
  · intro p2 req2 r1 r2 h1 h2
    have e1 : r1.Subject = "task." ++ req.TaskId := by
      unfold Upgrade at h1
      split at h1
      · cases h1
      · cases h1; rfl
    have e2 : r2.Subject = "task." ++ req2.TaskId := by
      unfold Upgrade at h2
      split at h2
      · cases h2
      · cases h2; rfl
    rw [e1, e2]
    constructor
    · exact taskTopic_injective _ _
    · intro e; rw [e]

theorem Upgrade_taskTopic_witness :
    (registerAll (NewPortal ⟨"localhost", 7000, 7010⟩) [⟨"n1", "a1"⟩]).nodes ≠ []
      ∧ ((∃ reply, Upgrade (registerAll (NewPortal ⟨"localhost", 7000, 7010⟩) [⟨"n1", "a1"⟩])
            ⟨"n2", "t1"⟩ = .ok reply ∧ reply.Subject = "task." ++ "t1")
        ∧ ∀ (p2 : Portal) (req2 : UpgradeRequest) (r1 r2 : UpgradeReply),
            Upgrade (registerAll (NewPortal ⟨"localhost", 7000, 7010⟩) [⟨"n1", "a1"⟩])
                ⟨"n2", "t1"⟩ = .ok r1 →
              Upgrade p2 req2 = .ok r2 →
              (r1.Subject = r2.Subject ↔ "t1" = req2.TaskId)) :=
  ⟨by simp [registerAll, Register, NewPortal],
   Upgrade_taskTopic (registerAll (NewPortal ⟨"localhost", 7000, 7010⟩) [⟨"n1", "a1"⟩])
    ⟨"n2", "t1"⟩ (by simp [registerAll, Register, NewPortal])⟩

/-! ## Portal.Register -/

theorem QueueAddr_sample : sampleConfig.QueueAddr = "localhost:7010" := by decide

/-- C7: for every Portal state and every request, `Register` returns no error
and a reply whose topic is `"tasks"` and whose address is the configured
`Host:QueuePort` string; the reply is the same for any other request and after
any earlier registrations. -/
theorem Register_reply (p : Portal) (request other : RegisterRequest)
    (earlier : List RegisterRequest) :
    (Register p request).2
        = .ok { Addr := p.config.Host ++ ":" ++ toString p.config.QueuePort, Subject := "tasks" }
      ∧ (Register p other).2 = (Register p request).2
      ∧ (Register (registerAll p earlier) request).2 = (Register p request).2 := by
  refine ⟨rfl, rfl, ?_⟩
  simp [Register, registerAll_config]

theorem mapSet_idem (m : String → Option String) (k v : String) :
    mapSet (mapSet m k v) k v = mapSet m k v := by
  funext x
  simp only [mapSet]
  split <;> rfl

/-- C3 (as stated, refuted): on a fresh Portal, registering node `n1` twice
does not leave the ordered node list as one registration leaves it: the list
is `[n1, n1]` after two calls and `[n1]` after one. -/
theorem Register_twice_nodes_counterexample :
    (Register (Register (NewPortal ⟨"localhost", 7000, 7010⟩) ⟨"n1", "a1"⟩).1 ⟨"n1", "a1"⟩).1.nodes
        = ["n1", "n1"]
      ∧ (Register (NewPortal ⟨"localhost", 7000, 7010⟩) ⟨"n1", "a1"⟩).1.nodes = ["n1"]
      ∧ (Register (Register (NewPortal ⟨"localhost", 7000, 7010⟩) ⟨"n1", "a1"⟩).1
            ⟨"n1", "a1"⟩).1.nodes
          ≠ (Register (NewPortal ⟨"localhost", 7000, 7010⟩) ⟨"n1", "a1"⟩).1.nodes := by
  refine ⟨rfl, rfl, ?_⟩
  simp [Register, NewPortal]

/-- C3 (amended): for every Portal state, nodeID and address, calling
`Register(nodeID, address)` twice leaves the node-to-address map and the
returned reply identical to calling it once, while the ordered node list is
the list after one call with nodeID appended once more. -/
theorem Register_twice (p : Portal) (request : RegisterRequest) :
    (Register (Register p request).1 request).1.nodeAddrMap
        = (Register p request).1.nodeAddrMap
      ∧ (Register (Register p request).1 request).2 = (Register p request).2
      ∧ (Register (Register p request).1 request).1.nodes
          = (Register p request).1.nodes ++ [request.Id] := by
  refine ⟨?_, rfl, rfl⟩
  simp only [Register]
  exact mapSet_idem _ _ _

theorem registerAll_nodeAddrMap (p : Portal) (rs : List RegisterRequest) (k : String) :
    (registerAll p rs).nodeAddrMap k
      = match lastRegisteredAddr k rs with
        | some a => some a
        | none => p.nodeAddrMap k := by
  induction rs generalizing p with
  | nil => rfl
  | cons r rs ih =>
    simp only [registerAll, lastRegisteredAddr]
    rw [ih]
    cases hl : lastRegisteredAddr k rs with
    | some a => rfl
    | none =>
      simp only [Register, mapSet]
      by_cases hk : r.Id = k
      · simp [hk]
      · have hk2 : ¬ k = r.Id := fun e => hk e.symm
        simp [hk, hk2]

theorem lastRegisteredAddr_isSome (k : String) (rs : List RegisterRequest)
    (h : k ∈ rs.map (fun r => r.Id)) : (lastRegisteredAddr k rs).isSome = true := by
  induction rs with
  | nil => simp at h
  | cons r rs ih =>
    simp only [lastRegisteredAddr]
    cases hl : lastRegisteredAddr k rs with
    | some a => rfl
    | none =>
      simp only [List.map_cons, List.mem_cons] at h
      rcases h with h | h
      · simp [h]
      · have := ih h
        rw [hl] at this
        simp at this

/-- C10: after any sequence of Register calls on a fresh Portal every id in
the ordered node list has an entry in the node-to-address map; and when the
sequence is non-empty, `Upgrade` returns the first-registered id together with
the address of the most recent Register call made with that id. -/
theorem Upgrade_dispatcherAddress (cfg : PortalConfig) (rs : List RegisterRequest)
    (first : RegisterRequest) (rest : List RegisterRequest) (req : UpgradeRequest) :
    (registerAll (NewPortal cfg) rs).nodes.all
        (fun id => ((registerAll (NewPortal cfg) rs).nodeAddrMap id).isSome) = true
      ∧ ∃ reply, Upgrade (registerAll (NewPortal cfg) (first :: rest)) req = .ok reply
          ∧ reply.NodeId = first.Id
          ∧ lastRegisteredAddr first.Id (first :: rest) = some reply.Addr := by
  constructor
  · rw [List.all_eq_true]
    intro id hid
    rw [registerAll_nodes] at hid
    simp only [NewPortal, List.nil_append] at hid
    rw [registerAll_nodeAddrMap]
    have hs := lastRegisteredAddr_isSome id rs hid
    cases hl : lastRegisteredAddr id rs with
    | some a => rfl
    | none => rw [hl] at hs; simp at hs
  · have hn := registerAll_nodes (NewPortal cfg) (first :: rest)
    simp only [NewPortal, List.nil_append, List.map_cons] at hn
    have hm := registerAll_nodeAddrMap (NewPortal cfg) (first :: rest) first.Id
    have hs := lastRegisteredAddr_isSome first.Id (first :: rest) (by simp)
    cases hl : lastRegisteredAddr first.Id (first :: rest) with
    | none => rw [hl] at hs; simp at hs
    | some a =>
      rw [hl] at hm
      simp only [NewPortal] at hm
      simp only [Upgrade, NewPortal, hn]
      refine ⟨_, rfl, rfl, ?_⟩
      simp [mapGet, hm]

/-! ## Portal.Wait -/

theorem waitLoop_eq (s : Int) (n : Nat) (replies seen : List TaskReply) (log : List LogLine) :
    waitLoop s n replies seen log
      = if replies.length < n then .blocks
        else if replies.length = n then
          .returns { err := none
                     observed := seen ++ replies
                     log := log ++ replies.map (waitCallback s) }
        else .panics "sync: negative WaitGroup counter" := by
  induction n generalizing replies seen log with
  | zero =>
    cases replies with
    | nil => simp [waitLoop]
    | cons tr rest => simp [waitLoop]
  | succ n ih =>
    cases replies with
    | nil => simp [waitLoop]
    | cons tr rest =>
      simp only [waitLoop, ih, List.length_cons, Nat.add_lt_add_iff_right,
        Nat.add_right_cancel_iff, List.map_cons, List.append_assoc, List.singleton_append]

theorem Wait_eq (s : Int) (p : Portal) (task : Task) (replies : List TaskReply) :
    Wait s p none task replies
      = if replies.length < p.nodes.length then .blocks
        else if replies.length = p.nodes.length then
          .returns { err := none, observed := replies, log := replies.map (waitCallback s) }
        else .panics "sync: negative WaitGroup counter" := by
  simp only [Wait, waitLoop_eq, List.nil_append]

theorem Wait_returned_err (s : Int) (p : Portal) (task : Task) (replies : List TaskReply)
    (r : WaitReturn) (h : Wait s p none task replies = .returns r) : r.err = none := by
  rw [Wait_eq] at h
  split at h
  · cases h
  · split at h
    · cases h; rfl
    · cases h

theorem Wait_extra_reply (s : Int) (p : Portal) (task : Task) (replies : List TaskReply)
    (h : p.nodes.length < replies.length) :
    Wait s p none task replies = .panics "sync: negative WaitGroup counter" := by
  rw [Wait_eq, if_neg (by omega), if_neg (by omega)]

theorem Wait_subscribe_error (s : Int) (p : Portal) (task : Task) (replies : List TaskReply)
    (e : String) :
    Wait s p (some e) task replies = .returns { err := some e, observed := [], log := [] } :=
  rfl

theorem runCalls_nodes_length (p : Portal) (calls : List PortalCall) :
    (runCalls p calls).nodes.length = p.nodes.length + registerCount calls := by
  induction calls generalizing p with
  | nil => simp [runCalls, registerCount]
  | cons c cs ih =>
    cases c with
    | register r =>
      simp only [runCalls, applyCall, registerCount, ih, Register, List.length_append,
        List.length_singleton]
      omega
    | publish t e =>
      cases e with
      | none => simp only [runCalls, applyCall, registerCount, ih, Publish]
      | some e => simp only [runCalls, applyCall, registerCount, ih, Publish]

theorem registerCount_append (xs ys : List PortalCall) :
    registerCount (xs ++ ys) = registerCount xs + registerCount ys := by
  induction xs with
  | nil => simp [registerCount]
  | cons c cs ih =>
    cases c with
    | register r =>
      show registerCount (cs ++ ys) + 1 = registerCount cs + 1 + registerCount ys
      omega
    | publish t e => exact ih

/-- C4 (as stated, refuted): two nodes are registered and two replies with
statuses 0 and 1, both with message "disk full", complete `Wait`. Whatever the
value of `JobStatusSucceed`, one of the two is not a succeeded reply, so the
claim asks for an error carrying "disk full"; `Wait` returns nil for every
value of the constant. -/
theorem Wait_failed_reply_counterexample :
    ¬ ∃ JobStatusSucceed : Int,
        (Wait JobStatusSucceed
            (registerAll (NewPortal ⟨"localhost", 7000, 7010⟩) [⟨"n1", "a1"⟩, ⟨"n2", "a2"⟩])
            none ⟨"t1", [], ⟨"j1", 0, []⟩⟩
            [⟨"t1", 0, "disk full"⟩, ⟨"t1", 1, "disk full"⟩]).returned?.map (fun r => r.err)
          ≠ some none := by
  rintro ⟨s, h⟩
  apply h
  simp [Wait_eq, WaitResult.returned?, registerAll, Register, NewPortal]

/-- C4 (amended): for every task and every sequence of TaskReplies that
completes `Wait` (the subscription succeeding, one reply delivered per entry
of the node list), `Wait` returns nil whatever the statuses of the replies;
each observed reply is only logged, a reply whose status is not succeeded at
error level with its message. And whenever `Wait` returns with the
subscription succeeding, it returns nil. -/
theorem Wait_returns_nil (JobStatusSucceed : Int) (p : Portal) (task : Task)
    (replies : List TaskReply) (h : replies.length = p.nodes.length) :
    Wait JobStatusSucceed p none task replies
        = .returns
            { err := none
              observed := replies
              log := replies.map (fun tr =>
                if tr.Status = JobStatusSucceed then LogLine.info "task succeed" tr.Id
                else LogLine.error "task failed" tr.Id tr.Message) }
      ∧ ∀ (delivered : List TaskReply) (r : WaitReturn),
          Wait JobStatusSucceed p none task delivered = .returns r → r.err = none := by
  constructor
  · rw [Wait_eq, if_neg (by omega), if_pos h]
    rfl
  · intro delivered r hr
    exact Wait_returned_err JobStatusSucceed p task delivered r hr

theorem Wait_returns_nil_witness :
    [(⟨"t1", 1, "disk full"⟩ : TaskReply)].length
        = (registerAll (NewPortal ⟨"localhost", 7000, 7010⟩) [⟨"n1", "a1"⟩]).nodes.length
      ∧ Wait 0 (registerAll (NewPortal ⟨"localhost", 7000, 7010⟩) [⟨"n1", "a1"⟩]) none
            ⟨"t1", [], ⟨"j1", 0, []⟩⟩ [⟨"t1", 1, "disk full"⟩]
          = .returns
              { err := none
                observed := [⟨"t1", 1, "disk full"⟩]
                log := [LogLine.error "task failed" "t1" "disk full"] } :=
  ⟨by simp [registerAll, Register, NewPortal],
   (Wait_returns_nil 0 (registerAll (NewPortal ⟨"localhost", 7000, 7010⟩) [⟨"n1", "a1"⟩])
    ⟨"t1", [], ⟨"j1", 0, []⟩⟩ [⟨"t1", 1, "disk full"⟩]
    (by simp [registerAll, Register, NewPortal])).1⟩

/-- C5 (as stated, refuted): node `n1` registers, the task is published, node
`n2` registers, then `Wait` is called. One node was registered at Publish time,
yet `Wait` stays blocked after one reply and returns after two. -/
theorem Wait_count_counterexample :
    (runCalls (NewPortal ⟨"localhost", 7000, 7010⟩) [.register ⟨"n1", "a1"⟩]).nodes.length = 1
      ∧ Wait 0
          (runCalls (NewPortal ⟨"localhost", 7000, 7010⟩)
            [.register ⟨"n1", "a1"⟩, .publish ⟨"t1", [], ⟨"j1", 0, []⟩⟩ none,
             .register ⟨"n2", "a2"⟩])
          none ⟨"t1", [], ⟨"j1", 0, []⟩⟩ [⟨"t1", 0, ""⟩] = .blocks
      ∧ (Wait 0
          (runCalls (NewPortal ⟨"localhost", 7000, 7010⟩)
            [.register ⟨"n1", "a1"⟩, .publish ⟨"t1", [], ⟨"j1", 0, []⟩⟩ none,
             .register ⟨"n2", "a2"⟩])
          none ⟨"t1", [], ⟨"j1", 0, []⟩⟩ [⟨"t1", 0, ""⟩, ⟨"t1", 0, ""⟩]).returned?.map
            (fun r => r.observed.length) = some 2 := by
  refine ⟨rfl, ?_, ?_⟩
  · simp [Wait_eq, runCalls, applyCall, Register, Publish, NewPortal]
  · simp [Wait_eq, WaitResult.returned?, runCalls, applyCall, Register, Publish, NewPortal]

/-- C5 (amended): for every interleaving of Register and Publish calls on a
fresh Portal in which `Publish(task)` occurs, followed by `Wait(task)`, the
number of TaskReplies `Wait` requires before it returns is the number of
Register calls made before `Wait` is called, those made after the Publish
included: with fewer replies delivered `Wait` stays blocked, and with exactly
that many it returns, having observed them all. -/
theorem Wait_required_replies (JobStatusSucceed : Int) (cfg : PortalConfig)
    (before after : List PortalCall) (task : Task) (busErr : Option String)
    (replies : List TaskReply)
    (h : replies.length ≤ registerCount before + registerCount after) :
    Wait JobStatusSucceed
        (runCalls (NewPortal cfg) (before ++ .publish task busErr :: after)) none task replies
      = if replies.length = registerCount before + registerCount after then
          .returns { err := none
                     observed := replies
                     log := replies.map (waitCallback JobStatusSucceed) }
        else .blocks := by
  have hn : (runCalls (NewPortal cfg) (before ++ .publish task busErr :: after)).nodes.length
      = registerCount before + registerCount after := by
    rw [runCalls_nodes_length, registerCount_append]
    simp [NewPortal, registerCount]
  rw [Wait_eq, hn]
  by_cases e : replies.length = registerCount before + registerCount after
  · rw [if_neg (by omega), if_pos e, if_pos e]
  · rw [if_pos (by omega), if_neg e]

theorem Wait_required_replies_witness :
    ([⟨"t1", 0, ""⟩, ⟨"t1", 1, "disk full"⟩] : List TaskReply).length
        ≤ registerCount [.register ⟨"n1", "a1"⟩] + registerCount [.register ⟨"n2", "a2"⟩]
      ∧ Wait 0
          (runCalls (NewPortal sampleConfig)
            ([.register ⟨"n1", "a1"⟩] ++ .publish sampleTask none :: [.register ⟨"n2", "a2"⟩]))
          none sampleTask [⟨"t1", 0, ""⟩, ⟨"t1", 1, "disk full"⟩]
        = .returns { err := none
                     observed := [⟨"t1", 0, ""⟩, ⟨"t1", 1, "disk full"⟩]
                     log := [LogLine.info "task succeed" "t1",
                             LogLine.error "task failed" "t1" "disk full"] } :=
  ⟨by decide,
   Wait_required_replies 0 sampleConfig [.register ⟨"n1", "a1"⟩] [.register ⟨"n2", "a2"⟩]
    sampleTask none [⟨"t1", 0, ""⟩, ⟨"t1", 1, "disk full"⟩] (by decide)⟩

/-! ## Agent.parseStorage and Agent.Handle -/

theorem parseLoop_resolved {S : Type} (parse : Endpoint → Except String S)
    (eps : List Endpoint) (acc : List S) (h : ∀ x ∈ eps, ∃ s, parse x = .ok s) :
    ∃ stores, parseLoop parse eps acc = (acc ++ stores, none)
      ∧ eps.map parse = stores.map Except.ok := by
  induction eps generalizing acc with
  | nil => exact ⟨[], by simp [parseLoop], rfl⟩
  | cons ep rest ih =>
    obtain ⟨s, hs⟩ := h ep (List.mem_cons_self _ _)
    obtain ⟨stores, h1, h2⟩ := ih (acc ++ [s]) (fun x hx => h x (List.mem_cons_of_mem _ hx))
    refine ⟨s :: stores, ?_, ?_⟩
    · simp only [parseLoop, hs, h1, List.append_assoc, List.singleton_append]
    · simp only [List.map_cons, hs, h2]

theorem parseLoop_unresolved {S : Type} (parse : Endpoint → Except String S)
    (pre : List Endpoint) (ep : Endpoint) (post : List Endpoint) (e : String) (acc : List S)
    (hpre : ∀ x ∈ pre, ∃ s, parse x = .ok s) (hep : parse ep = .error e) :
    ∃ kept, parseLoop parse (pre ++ ep :: post) acc = (kept, some e) := by
  induction pre generalizing acc with
  | nil => exact ⟨acc, by simp only [List.nil_append, parseLoop, hep]⟩
  | cons x rest ih =>
    obtain ⟨s, hs⟩ := hpre x (List.mem_cons_self _ _)
    obtain ⟨kept, hk⟩ := ih (acc ++ [s]) (fun y hy => hpre y (List.mem_cons_of_mem _ hy))
    refine ⟨kept, ?_⟩
    show parseLoop parse (x :: (rest ++ ep :: post)) acc = (kept, some e)
    simp only [parseLoop, hs, hk]

theorem resolved_pointwise {S : Type} (parse : Endpoint → Except String S)
    (eps : List Endpoint) (stores : List S) (h : eps.map parse = stores.map Except.ok) :
    stores.length = eps.length
      ∧ ∀ (i : Nat) (h1 : i < eps.length) (h2 : i < stores.length),
          parse eps[i] = .ok stores[i] := by
  have hl : stores.length = eps.length := by
    have := congrArg List.length h
    simpa using this.symm
  refine ⟨hl, ?_⟩
  intro i h1 h2
  have h3 : (eps.map parse)[i]? = (stores.map Except.ok)[i]? := by rw [h]
  simpa [List.getElem?_map, List.getElem?_eq_getElem h1, List.getElem?_eq_getElem h2] using h3

theorem handleServer_storages {S : Type} (env : Env S) (a : Agent S) (addr : String) :
    (handleServer env a addr).1.storages = a.storages := by
  unfold handleServer
  split
  · rfl
  · split
    · rfl
    · split <;> rfl

theorem handleClient_storages {S : Type} (env : Env S) (a : Agent S) (addr : String) :
    (handleClient env a addr).1.storages = a.storages := by
  unfold handleClient
  split
  · rfl
  · split
    · rfl
    · split <;> rfl

theorem Handle_resolved {S : Type} (env : Env S) (w : Worker) (t : Task) (reply : UpgradeReply)
    (hup : w.node { NodeId := w.id, TaskId := t.Id } = .ok reply)
    (hres : ∀ x ∈ t.Endpoints, ∃ s, env.ParseStorager x = .ok s) :
    (Handle env (NewAgent w t)).branch
        = some (if reply.NodeId = w.id then Branch.handleServer else Branch.handleClient)
      ∧ t.Endpoints.map env.ParseStorager
          = (Handle env (NewAgent w t)).agent.storages.map Except.ok := by
  obtain ⟨stores, h1, h2⟩ := parseLoop_resolved env.ParseStorager t.Endpoints [] hres
  simp only [List.nil_append] at h1
  by_cases hid : reply.NodeId = w.id
  · simp [Handle, NewAgent, hup, parseStorage, h1, hid, handleServer_storages, h2]
  · simp [Handle, NewAgent, hup, parseStorage, h1, hid, handleClient_storages, h2]

theorem Handle_unresolved {S : Type} (env : Env S) (w : Worker) (t : Task) (reply : UpgradeReply)
    (hup : w.node { NodeId := w.id, TaskId := t.Id } = .ok reply)
    (pre : List Endpoint) (ep : Endpoint) (post : List Endpoint) (e : String)
    (hsplit : t.Endpoints = pre ++ ep :: post)
    (hpre : ∀ x ∈ pre, ∃ s, env.ParseStorager x = .ok s)
    (hep : env.ParseStorager ep = .error e) :
    (Handle env (NewAgent w t)).err = some e
      ∧ (Handle env (NewAgent w t)).branch = none
      ∧ (Handle env (NewAgent w t)).events = [] := by
  obtain ⟨kept, hk⟩ := parseLoop_unresolved env.ParseStorager pre ep post e [] hpre hep
  rw [← hsplit] at hk
  simp [Handle, NewAgent, hup, parseStorage, hk]

theorem Upgrade_registerAll_cons (cfg : PortalConfig) (first : RegisterRequest)
    (rest : List RegisterRequest) (req : UpgradeRequest) :
    Upgrade (registerAll (NewPortal cfg) (first :: rest)) req
      = .ok { NodeId := first.Id
              Addr := mapGet (registerAll (NewPortal cfg) (first :: rest)).nodeAddrMap first.Id
              Subject := "task." ++ req.TaskId } := by
  have hn := registerAll_nodes (NewPortal cfg) (first :: rest)
  simp only [NewPortal, List.nil_append, List.map_cons] at hn
  simp only [Upgrade, NewPortal, hn]

/-- C9: when the Upgrade call of `Handle` succeeds: if some Endpoint of the
task cannot be resolved, `Handle` returns the resolution error of the first
such Endpoint in list order, enters neither branch and makes no outside call
(no bus connection, no runner); if all Endpoints resolve, the Agent holds as
many storage handles as the task has Endpoints and its i-th handle is the one
resolved from the i-th Endpoint. -/
theorem Handle_endpoint_resolution {S : Type} (env : Env S) (w : Worker) (t : Task)
    (reply : UpgradeReply) (hup : w.node { NodeId := w.id, TaskId := t.Id } = .ok reply) :
    (∀ (pre : List Endpoint) (ep : Endpoint) (post : List Endpoint) (e : String),
        t.Endpoints = pre ++ ep :: post →
        (∀ x ∈ pre, ∃ s, env.ParseStorager x = .ok s) →
        env.ParseStorager ep = .error e →
          (Handle env (NewAgent w t)).err = some e
            ∧ (Handle env (NewAgent w t)).branch = none
            ∧ (Handle env (NewAgent w t)).events = [])
      ∧ ((∀ x ∈ t.Endpoints, ∃ s, env.ParseStorager x = .ok s) →
          (Handle env (NewAgent w t)).agent.storages.length = t.Endpoints.length
            ∧ ∀ (i : Nat) (h1 : i < t.Endpoints.length)
                (h2 : i < (Handle env (NewAgent w t)).agent.storages.length),
                env.ParseStorager t.Endpoints[i]
                  = .ok (Handle env (NewAgent w t)).agent.storages[i]) := by
  constructor
  · intro pre ep post e hsplit hpre hep
    exact Handle_unresolved env w t reply hup pre ep post e hsplit hpre hep
  · intro hres
    exact resolved_pointwise env.ParseStorager t.Endpoints _
      (Handle_resolved env w t reply hup hres).2

theorem Handle_endpoint_resolution_witness :
    (connectedWorker samplePortal "n2").node
        { NodeId := (connectedWorker samplePortal "n2").id, TaskId := brokenTask.Id }
        = .ok ⟨"n1", "a1", "task.t2"⟩
      ∧ (Handle sampleEnv (NewAgent (connectedWorker samplePortal "n2") brokenTask)).err
          = some "unsupported type: s3"
      ∧ (Handle sampleEnv (NewAgent (connectedWorker samplePortal "n2") brokenTask)).branch = none
      ∧ (Handle sampleEnv (NewAgent (connectedWorker samplePortal "n2") brokenTask)).events = []
      ∧ (connectedWorker samplePortal "n2").node
          { NodeId := (connectedWorker samplePortal "n2").id, TaskId := sampleTask.Id }
          = .ok ⟨"n1", "a1", "task.t1"⟩
      ∧ (Handle sampleEnv
          (NewAgent (connectedWorker samplePortal "n2") sampleTask)).agent.storages.length
          = sampleTask.Endpoints.length :=
  ⟨rfl,
   ((Handle_endpoint_resolution sampleEnv (connectedWorker samplePortal "n2") brokenTask
      ⟨"n1", "a1", "task.t2"⟩ rfl).1
      [⟨"fs", [⟨"work_dir", "/tmp/b/"⟩]⟩] ⟨"s3", []⟩ [⟨"ftp", []⟩] "unsupported type: s3" rfl
      (by intro x hx; simp at hx; subst hx; exact ⟨_, rfl⟩) rfl).1,
   ((Handle_endpoint_resolution sampleEnv (connectedWorker samplePortal "n2") brokenTask
      ⟨"n1", "a1", "task.t2"⟩ rfl).1
      [⟨"fs", [⟨"work_dir", "/tmp/b/"⟩]⟩] ⟨"s3", []⟩ [⟨"ftp", []⟩] "unsupported type: s3" rfl
      (by intro x hx; simp at hx; subst hx; exact ⟨_, rfl⟩) rfl).2.1,
   ((Handle_endpoint_resolution sampleEnv (connectedWorker samplePortal "n2") brokenTask
      ⟨"n1", "a1", "task.t2"⟩ rfl).1
      [⟨"fs", [⟨"work_dir", "/tmp/b/"⟩]⟩] ⟨"s3", []⟩ [⟨"ftp", []⟩] "unsupported type: s3" rfl
      (by intro x hx; simp at hx; subst hx; exact ⟨_, rfl⟩) rfl).2.2,
   rfl,
   ((Handle_endpoint_resolution sampleEnv (connectedWorker samplePortal "n2") sampleTask
      ⟨"n1", "a1", "task.t1"⟩ rfl).2
      (by
        intro x hx
        simp only [sampleTask, List.mem_cons, List.mem_singleton, List.not_mem_nil,
          or_false] at hx
        rcases hx with hx | hx <;> subst hx <;> exact ⟨_, rfl⟩)).1⟩

theorem filter_dispatcher (first : RegisterRequest) (rest : List RegisterRequest)
    (hnd : ((first :: rest).map (fun r => r.Id)).Nodup) :
    (first :: rest).filter (fun r => decide (r.Id = first.Id)) = [first] := by
  have hnot : first.Id ∉ rest.map (fun r => r.Id) := by
    simp only [List.map_cons, List.nodup_cons] at hnd
    exact hnd.1
  have hrest : rest.filter (fun r => decide (r.Id = first.Id)) = [] := by
    rw [List.filter_eq_nil_iff]
    intro r hr
    simp only [decide_eq_true_eq]
    intro e
    exact hnot (e ▸ List.mem_map_of_mem (fun r => r.Id) hr)
  simp [List.filter_cons, hrest]

/-- C8 (as stated, refuted): nodes `n1` and `n2` are registered and the task
has an Endpoint the resolver rejects. Neither worker's `Handle` enters a
branch: no worker takes the dispatcher branch, although `Upgrade` names `n1`. -/
theorem Handle_no_dispatcher_counterexample :
    (Handle sampleEnv (NewAgent (connectedWorker samplePortal "n1") brokenTask)).branch = none
      ∧ (Handle sampleEnv (NewAgent (connectedWorker samplePortal "n2") brokenTask)).branch = none
      ∧ Upgrade samplePortal ⟨"n1", "t2"⟩ = .ok ⟨"n1", "a1", "task.t2"⟩
      ∧ (["n1", "n2"].filter (fun id =>
          decide ((Handle sampleEnv (NewAgent (connectedWorker samplePortal id) brokenTask)).branch
            = some Branch.handleServer))).length = 0 := by
  refine ⟨rfl, rfl, rfl, ?_⟩
  decide

/-- C8 (amended): for every task whose Endpoints all resolve on every worker,
and every non-empty sequence of workers with pairwise distinct ids registered
on a fresh Portal and calling `Upgrade` on it: `Upgrade` names the
first-registered id, a worker's `Handle` takes the dispatcher branch
(handleServer) when its id is that id and the follower branch (handleClient)
otherwise, and exactly one worker takes the dispatcher branch. -/
theorem Handle_roles {S : Type} (cfg : PortalConfig) (first : RegisterRequest)
    (rest : List RegisterRequest) (t : Task) (envs : String → Env S)
    (hnd : ((first :: rest).map (fun r => r.Id)).Nodup)
    (hres : ∀ r ∈ first :: rest, ∀ ep ∈ t.Endpoints,
      ∃ s, (envs r.Id).ParseStorager ep = .ok s) :
    (∀ r ∈ first :: rest,
        ∃ reply, Upgrade (registerAll (NewPortal cfg) (first :: rest)) ⟨r.Id, t.Id⟩ = .ok reply
          ∧ reply.NodeId = first.Id
          ∧ (Handle (envs r.Id)
              (NewAgent (connectedWorker (registerAll (NewPortal cfg) (first :: rest)) r.Id)
                t)).branch
            = some (if r.Id = reply.NodeId then Branch.handleServer else Branch.handleClient))
      ∧ ((first :: rest).filter (fun r =>
          decide ((Handle (envs r.Id)
              (NewAgent (connectedWorker (registerAll (NewPortal cfg) (first :: rest)) r.Id)
                t)).branch
            = some Branch.handleServer))).length = 1 := by
  have hb : ∀ r ∈ first :: rest,
      (Handle (envs r.Id)
          (NewAgent (connectedWorker (registerAll (NewPortal cfg) (first :: rest)) r.Id) t)).branch
        = some (if r.Id = first.Id then Branch.handleServer else Branch.handleClient) := by
    intro r hr
    have hup : (connectedWorker (registerAll (NewPortal cfg) (first :: rest)) r.Id).node
        { NodeId := (connectedWorker (registerAll (NewPortal cfg) (first :: rest)) r.Id).id
          TaskId := t.Id }
        = .ok { NodeId := first.Id
                Addr := mapGet (registerAll (NewPortal cfg) (first :: rest)).nodeAddrMap first.Id
                Subject := "task." ++ t.Id } := by
      simp only [connectedWorker, portalClient, Upgrade_registerAll_cons]
    have h := (Handle_resolved (envs r.Id) _ t _ hup (hres r hr)).1
    rw [h]
    simp only [connectedWorker]
    by_cases e : r.Id = first.Id
    · simp [e]
    · have e2 : ¬ first.Id = r.Id := fun x => e x.symm
      simp [e, e2]
  constructor
  · intro r hr
    refine ⟨_, Upgrade_registerAll_cons cfg first rest ⟨r.Id, t.Id⟩, rfl, ?_⟩
    exact hb r hr
  · have hf : (first :: rest).filter (fun r =>
          decide ((Handle (envs r.Id)
              (NewAgent (connectedWorker (registerAll (NewPortal cfg) (first :: rest)) r.Id)
                t)).branch
            = some Branch.handleServer))
        = (first :: rest).filter (fun r => decide (r.Id = first.Id)) := by
      apply List.filter_congr
      intro r hr
      rw [hb r hr]
      by_cases e : r.Id = first.Id <;> simp [e]
    rw [hf, filter_dispatcher first rest hnd]
    rfl

theorem Handle_roles_witness :
    (([⟨"n1", "a1"⟩, ⟨"n2", "a2"⟩] : List RegisterRequest).map (fun r => r.Id)).Nodup
      ∧ (∀ r ∈ ([⟨"n1", "a1"⟩, ⟨"n2", "a2"⟩] : List RegisterRequest), ∀ ep ∈ sampleTask.Endpoints,
          ∃ s, sampleEnv.ParseStorager ep = .ok s)
      ∧ (∀ r ∈ ([⟨"n1", "a1"⟩, ⟨"n2", "a2"⟩] : List RegisterRequest),
          ∃ reply, Upgrade (registerAll (NewPortal sampleConfig) [⟨"n1", "a1"⟩, ⟨"n2", "a2"⟩])
              ⟨r.Id, sampleTask.Id⟩ = .ok reply
            ∧ reply.NodeId = "n1"
            ∧ (Handle sampleEnv
                (NewAgent (connectedWorker
                  (registerAll (NewPortal sampleConfig) [⟨"n1", "a1"⟩, ⟨"n2", "a2"⟩]) r.Id)
                  sampleTask)).branch
              = some (if r.Id = reply.NodeId then Branch.handleServer else Branch.handleClient))
      ∧ (([⟨"n1", "a1"⟩, ⟨"n2", "a2"⟩] : List RegisterRequest).filter (fun r =>
          decide ((Handle sampleEnv
              (NewAgent (connectedWorker
                (registerAll (NewPortal sampleConfig) [⟨"n1", "a1"⟩, ⟨"n2", "a2"⟩]) r.Id)
                sampleTask)).branch
            = some Branch.handleServer))).length = 1 :=
  ⟨by decide,
   by
    intro r _ ep hep
    simp only [sampleTask, List.mem_cons, List.mem_singleton, List.not_mem_nil, or_false] at hep
    rcases hep with hep | hep <;> subst hep <;> exact ⟨_, rfl⟩,
   Handle_roles sampleConfig ⟨"n1", "a1"⟩ [⟨"n2", "a2"⟩] sampleTask (fun _ => sampleEnv)
    (by decide)
    (by
      intro r _ ep hep
      simp only [sampleTask, List.mem_cons, List.mem_singleton, List.not_mem_nil, or_false] at hep
      rcases hep with hep | hep <;> subst hep <;> exact ⟨_, rfl⟩)⟩

end Noah
